import Mathlib

/-!
Shallow embedding of the Star Atlas scan-analyzer scripts
(anal_rc1.js, app.js, app_local_pushover.js, sdu_price.js).

Modelling conventions:
* JS numbers are embedded as rationals (exact arithmetic); timestamps
  (millisecond epoch values, as compared by Date objects) and SDU counts
  (parseInt results) are integers.
* JS strings are Lean strings; trim, toLowerCase, split, join, includes,
  padEnd and repeat are modelled by the character-list functions below.
* JS objects used as string-keyed dictionaries are association lists kept in
  insertion order; property write is upsert, property read is lookupStr.
* toFixed rounds to the nearest value at the chosen precision with
  half-ties away from zero: ECMA strips the sign first and only then picks
  the larger candidate on a tie, so (-12.5).toFixed(0) is "-13". toFixed(0)
  on a number is jsToFixed0 below (it agrees with `round` on nonnegative
  values); parseFloat(x).toFixed(6) read back as a number is toFixed6,
  applied only to prices at or above the positive floor, where the two tie
  rules coincide.
* A CSV row is a record of optional fields: a missing entry models a field
  that is absent or empty (falsy in JS); for Timestamp and SDU Count the
  inner option models the result of Date parsing / parseInt (none = NaN).
-/

namespace StarAtlasScan

/-- Model of toLowerCase: lower-case every character. -/
def jsToLower (s : String) : String := ⟨s.data.map Char.toLower⟩

/-- Model of trim: drop whitespace from both ends (interior runs stay). -/
def jsTrim (s : String) : String :=
  ⟨((s.data.dropWhile Char.isWhitespace).reverse.dropWhile Char.isWhitespace).reverse⟩

/-- The query normalisation fleet.toLowerCase().trim() shared by every
getRentalCost variant in the repository. -/
def normalizeQuery (s : String) : String := jsTrim (jsToLower s)

/-- Model of split(sep) for a one-character separator. -/
def splitOnChar (sep : Char) : List Char → List (List Char)
  | [] => [[]]
  | c :: rest =>
    let ws := splitOnChar sep rest
    if c = sep then [] :: ws
    else
      match ws with
      | w :: tl => (c :: w) :: tl
      | [] => [[c]]

/-- Model of join(" ") over a word list. -/
def joinSpace (ws : List (List Char)) : String :=
  String.intercalate " " (ws.map fun w => ⟨w⟩)

/-- Boolean substring test, modelling includes(sub). -/
def hasSub (sub : List Char) : List Char → Bool
  | [] => sub.isEmpty
  | c :: rest => sub.isPrefixOf (c :: rest) || hasSub sub rest

/-- Property read on a string-keyed JS object. -/
def lookupStr {β : Type} (k : String) : List (String × β) → Option β
  | [] => none
  | (k₀, v) :: rest => if k₀ = k then some v else lookupStr k rest

/-- Property write on a string-keyed JS object: overwrite in place, or append
a new key at the end (JS objects preserve insertion order). -/
def upsert {β : Type} (k : String) (v : β) : List (String × β) → List (String × β)
  | [] => [(k, v)]
  | (k₀, w) :: rest => if k₀ = k then (k, v) :: rest else (k₀, w) :: upsert k v rest

/-- The environment key tag "RENTAL_" as characters. -/
def rentalKeyTag : List Char := "RENTAL_".data

/-- RENTAL_ key suffix to fleet name (loadRentalPrices, anal_rc1.js lines
17-21): drop the 7-character tag, split on underscores, lower-case each
word, re-join with single spaces. -/
def rentalKeyToFleet (k : String) : String :=
  joinSpace ((splitOnChar '_' (k.data.drop 7)).map fun w => w.map Char.toLower)

/-- loadRentalPrices (anal_rc1.js lines 13-26): fold the environment into a
fleet-name → rate table, keeping entries whose key carries the RENTAL_ tag.
A none value models parseFloat of a malformed env value (NaN). -/
def loadRentalPrices (env : List (String × Option ℚ)) : List (String × Option ℚ) :=
  env.foldl
    (fun tbl kv =>
      if rentalKeyTag.isPrefixOf kv.1.data then upsert (rentalKeyToFleet kv.1) kv.2 tbl
      else tbl)
    []

/-- getRentalCost (anal_rc1.js lines 29-32). The outer none models the
string "N/A" returned when the normalised fleet name is not a key of the
table; some none models a stored NaN rate. -/
def getRentalCost (tbl : List (String × Option ℚ)) (fleet : String) : Option (Option ℚ) :=
  lookupStr (normalizeQuery fleet) tbl

/-- getRentalCostApp (app.js lines 28-34): a fleet whose normalised name
contains "lemon" is forced to "N/A"; otherwise the stored env value is
looked up. none models "N/A" as well as a stored value whose parseFloat is
NaN (an empty env string is falsy and also yields "N/A"; its parseFloat
would be NaN too, so the collapse is faithful to every caller). -/
def getRentalCostApp (tbl : List (String × Option ℚ)) (fleet : String) : Option ℚ :=
  if hasSub "lemon".data (normalizeQuery fleet).data then none
  else (lookupStr (normalizeQuery fleet) tbl).bind id

/-- A one-entry environment used as a concrete input below. -/
def demoEnv : List (String × Option ℚ) := [("RENTAL_PLANET_EATER", some 10)]

/-- C7 counterexample: with the configured key RENTAL_PLANET_EATER, the query
"Planet Eater" resolves to the rate, but " planet   eater " does not —
getRentalCost lower-cases and trims only, it never collapses interior
whitespace runs, so the claim that all three spellings resolve to the same
configured rate is false. -/
theorem getRentalCost_interior_whitespace_mismatch :
    getRentalCost (loadRentalPrices demoEnv) "Planet Eater" = some (some 10)
      ∧ getRentalCost (loadRentalPrices demoEnv) " planet   eater " = none := by
  constructor
  · decide
  · decide

/-- C7 (amended): rental-rate lookup is insensitive to letter case and to
leading and trailing whitespace — two queries with the same lower-cased,
trimmed form resolve identically against any configured environment.
(Interior whitespace runs are not collapsed; see the counterexample.) -/
theorem getRentalCost_normalized_queries_agree (env : List (String × Option ℚ))
    (q₁ q₂ : String) (h : normalizeQuery q₁ = normalizeQuery q₂) :
    getRentalCost (loadRentalPrices env) q₁ = getRentalCost (loadRentalPrices env) q₂ := by
  unfold getRentalCost
  rw [h]

/-- Concrete instance of the amended C7 statement: "PLANET EATER" and
"  planet eater" normalise identically, hence resolve to the same rate. -/
theorem getRentalCost_normalized_queries_agree_witness :
    getRentalCost (loadRentalPrices demoEnv) "PLANET EATER"
      = getRentalCost (loadRentalPrices demoEnv) "  planet eater" :=
  getRentalCost_normalized_queries_agree demoEnv "PLANET EATER" "  planet eater" (by decide)

/-- One parsed CSV row. A missing outer option models a field that is absent
or an empty string (falsy under the JS ! test); for timestamp the inner
option is the Date parse result (none = Invalid Date, including app.js's
second, reformatted parse attempt), for sduCount it is the parseInt result
(none = NaN). -/
structure Row where
  timestamp : Option (Option ℤ)
  fleetName : Option String
  sduCount : Option (Option ℤ)
  starbaseCoordinate : Option String
  starbase : Option String
deriving DecidableEq

/-- Per-fleet accumulator of processCSV (anal_rc1.js line 86):
SDUs counts the dynamic window, SDUs24h the fixed 24-hour window. -/
structure FleetStats where
  SDUs : ℤ
  SDUs24h : ℤ
  baseName : String
deriving DecidableEq

/-- The validation gate of processCSV (anal_rc1.js lines 78-83): all three
fields must be present (truthy) and the timestamp must parse; the surviving
record is the trimmed fleet name, the timestamp, and parseInt(sdu) || 0. -/
def validRecord (r : Row) : Option (String × ℤ × ℤ) :=
  match r.timestamp, r.fleetName, r.sduCount with
  | some ts?, some f, some sdu? =>
    match ts? with
    | some ts => some (jsTrim f, ts, sdu?.getD 0)
    | none => none
  | _, _, _ => none

/-- The starbase key of a row (anal_rc1.js lines 92-97): the trimmed
Starbase Coordinate if non-empty, else the trimmed Starbase, else "".
(A falsy raw field and a whitespace-only field both end as "".) -/
def starbaseKey (r : Row) : String :=
  if (r.starbaseCoordinate.map jsTrim).getD "" ≠ "" then
    (r.starbaseCoordinate.map jsTrim).getD ""
  else if (r.starbase.map jsTrim).getD "" ≠ "" then (r.starbase.map jsTrim).getD ""
  else ""

/-- The per-row body of processCSV (anal_rc1.js lines 77-105): skip invalid
rows; otherwise create the fleet entry if absent, add the count to the
windows the timestamp reaches, and overwrite baseName when a starbase key is
present (last writer wins). -/
def processRow (bases : List (String × String)) (since last24h : ℤ)
    (fleetData : List (String × FleetStats)) (r : Row) : List (String × FleetStats) :=
  match validRecord r with
  | none => fleetData
  | some (fleet, ts, sdu) =>
    let st0 := (lookupStr fleet fleetData).getD ⟨0, 0, ""⟩
    let st1 := if since ≤ ts then { st0 with SDUs := st0.SDUs + sdu } else st0
    let st2 := if last24h ≤ ts then { st1 with SDUs24h := st1.SDUs24h + sdu } else st1
    let st3 :=
      if starbaseKey r = "" then st2
      else { st2 with baseName := (lookupStr (starbaseKey r) bases).getD "Unknown" }
    upsert fleet st3 fleetData

/-- Milliseconds per hour, as in hours * 60 * 60 * 1000. -/
def msPerHour : ℤ := 3600000

/-- processCSV (anal_rc1.js lines 68-109; identical windowing in
app_local_pushover.js lines 45-68): fold the row stream into the per-fleet
mapping, with since = now - hours·3600000 ms and last24h = now - 24 h. -/
def processCSV (bases : List (String × String)) (hours now : ℤ) (rows : List Row) :
    List (String × FleetStats) :=
  rows.foldl (processRow bases (now - hours * msPerHour) (now - 24 * msPerHour)) []

/-- The dynamic-window count the mapping reports for a fleet (0 when the
fleet has no entry). -/
def statSDUs (fleetData : List (String × FleetStats)) (fleet : String) : ℤ :=
  ((lookupStr fleet fleetData).map FleetStats.SDUs).getD 0

/-- The 24-hour count the mapping reports for a fleet (0 when absent). -/
def statSDUs24h (fleetData : List (String × FleetStats)) (fleet : String) : ℤ :=
  ((lookupStr fleet fleetData).map FleetStats.SDUs24h).getD 0

/-- The contribution of one surviving record to a fleet's count for window
start `since`: its count when the names match and the timestamp reaches the
window, else 0. -/
def recordContrib (fleet : String) (since : ℤ) (e : String × ℤ × ℤ) : ℤ :=
  if e.1 = fleet ∧ since ≤ e.2.1 then e.2.2 else 0

/-- Sum of the counts of the valid records of one fleet whose timestamp is
at least `since` (no upper bound). -/
def fleetWindowSum (fleet : String) (since : ℤ) (rows : List Row) : ℤ :=
  ((rows.filterMap validRecord).map (recordContrib fleet since)).sum

/-- Whether some row of the stream survives validation with this fleet name. -/
def hasValidRecordFor (fleet : String) (rows : List Row) : Prop :=
  ∃ e ∈ rows.filterMap validRecord, e.1 = fleet

theorem lookupStr_upsert {β : Type} (k q : String) (v : β) (l : List (String × β)) :
    lookupStr q (upsert k v l) = if k = q then some v else lookupStr q l := by
  induction l with
  | nil => simp [upsert, lookupStr]
  | cons hd tl ih =>
    obtain ⟨k₀, w⟩ := hd
    by_cases hk : k₀ = k
    · subst hk
      by_cases hq : k₀ = q <;> simp [upsert, lookupStr, hq]
    · by_cases hq : k₀ = q
      · subst hq
        have : ¬ k = k₀ := fun h => hk h.symm
        simp [upsert, lookupStr, hk, this]
      · simp [upsert, lookupStr, hk, hq, ih]

theorem statSDUs_processRow (bases : List (String × String)) (since last24h : ℤ)
    (fleetData : List (String × FleetStats)) (r : Row) (fleet : String) :
    statSDUs (processRow bases since last24h fleetData r) fleet
      = statSDUs fleetData fleet
        + ((validRecord r).map (recordContrib fleet since)).getD 0 := by
  unfold processRow
  cases hv : validRecord r with
  | none => simp
  | some e =>
    obtain ⟨f, ts, sdu⟩ := e
    simp only [Option.map_some, Option.getD_some]
    unfold statSDUs recordContrib
    rw [lookupStr_upsert]
    by_cases hf : f = fleet
    · subst hf
      cases hs : lookupStr f fleetData with
      | none => by_cases hw : since ≤ ts <;> by_cases h24 : last24h ≤ ts <;>
          by_cases hb : starbaseKey r = "" <;> simp [hs, hw, h24, hb]
      | some st => by_cases hw : since ≤ ts <;> by_cases h24 : last24h ≤ ts <;>
          by_cases hb : starbaseKey r = "" <;> simp [hs, hw, h24, hb]
    · simp [hf]

theorem statSDUs24h_processRow (bases : List (String × String)) (since last24h : ℤ)
    (fleetData : List (String × FleetStats)) (r : Row) (fleet : String) :
    statSDUs24h (processRow bases since last24h fleetData r) fleet
      = statSDUs24h fleetData fleet
        + ((validRecord r).map (recordContrib fleet last24h)).getD 0 := by
  unfold processRow
  cases hv : validRecord r with
  | none => simp
  | some e =>
    obtain ⟨f, ts, sdu⟩ := e
    simp only [Option.map_some, Option.getD_some]
    unfold statSDUs24h recordContrib
    rw [lookupStr_upsert]
    by_cases hf : f = fleet
    · subst hf
      cases hs : lookupStr f fleetData with
      | none => by_cases hw : since ≤ ts <;> by_cases h24 : last24h ≤ ts <;>
          by_cases hb : starbaseKey r = "" <;> simp [hs, hw, h24, hb]
      | some st => by_cases hw : since ≤ ts <;> by_cases h24 : last24h ≤ ts <;>
          by_cases hb : starbaseKey r = "" <;> simp [hs, hw, h24, hb]
    · simp [hf]

theorem statSDUs_foldl (bases : List (String × String)) (since last24h : ℤ)
    (fleet : String) (rows : List Row) :
    ∀ fleetData : List (String × FleetStats),
      statSDUs (rows.foldl (processRow bases since last24h) fleetData) fleet
        = statSDUs fleetData fleet + fleetWindowSum fleet since rows := by
  induction rows with
  | nil => intro fd; simp [fleetWindowSum]
  | cons r rest ih =>
    intro fd
    rw [List.foldl_cons, ih, statSDUs_processRow]
    unfold fleetWindowSum
    cases hv : validRecord r <;> simp [List.filterMap_cons, hv] <;> ring

theorem statSDUs24h_foldl (bases : List (String × String)) (since last24h : ℤ)
    (fleet : String) (rows : List Row) :
    ∀ fleetData : List (String × FleetStats),
      statSDUs24h (rows.foldl (processRow bases since last24h) fleetData) fleet
        = statSDUs24h fleetData fleet + fleetWindowSum fleet last24h rows := by
  induction rows with
  | nil => intro fd; simp [fleetWindowSum]
  | cons r rest ih =>
    intro fd
    rw [List.foldl_cons, ih, statSDUs24h_processRow]
    unfold fleetWindowSum
    cases hv : validRecord r <;> simp [List.filterMap_cons, hv] <;> ring

theorem lookupStr_isSome_processRow (bases : List (String × String)) (since last24h : ℤ)
    (fleetData : List (String × FleetStats)) (r : Row) (fleet : String) :
    (lookupStr fleet (processRow bases since last24h fleetData r)).isSome
      = ((lookupStr fleet fleetData).isSome
          || (match validRecord r with
              | some e => decide (e.1 = fleet)
              | none => false)) := by
  unfold processRow
  cases hv : validRecord r with
  | none => simp
  | some e =>
    obtain ⟨f, ts, sdu⟩ := e
    rw [lookupStr_upsert]
    by_cases hf : f = fleet
    · simp [hf]
    · simp [hf]

theorem lookupStr_isSome_foldl (bases : List (String × String)) (since last24h : ℤ)
    (fleet : String) (rows : List Row) :
    ∀ fleetData : List (String × FleetStats),
      (lookupStr fleet (rows.foldl (processRow bases since last24h) fleetData)).isSome
        = ((lookupStr fleet fleetData).isSome
            || rows.any fun r =>
                match validRecord r with
                | some e => decide (e.1 = fleet)
                | none => false) := by
  induction rows with
  | nil => intro fd; simp
  | cons r rest ih =>
    intro fd
    rw [List.foldl_cons, ih, lookupStr_isSome_processRow, List.any_cons]
    cases hv : validRecord r with
    | none => simp
    | some e =>
      simp only
      cases (lookupStr fleet fd).isSome <;> cases decide (e.1 = fleet) <;> simp

theorem processCSV_counts_spec (bases : List (String × String)) (hours now : ℤ)
    (rows : List Row) (fleet : String) :
    statSDUs (processCSV bases hours now rows) fleet
        = fleetWindowSum fleet (now - hours * msPerHour) rows
      ∧ statSDUs24h (processCSV bases hours now rows) fleet
        = fleetWindowSum fleet (now - 24 * msPerHour) rows := by
  unfold processCSV
  rw [statSDUs_foldl, statSDUs24h_foldl]
  simp [statSDUs, statSDUs24h, lookupStr]

/-- C1 (amended): for every record stream, window size, reference time and
fleet, the mapping produced by processCSV reports as the dynamic-window
count the sum of the SDU counts over exactly that fleet's valid records
with timestamp ≥ now − windowHours, and as the 24-hour count the same sum
with timestamp ≥ now − 24 h. The code imposes no upper bound at `now`, so
records time-stamped after `now` are counted in both windows. -/
theorem processCSV_counts_eq_window_sums (bases : List (String × String)) (hours now : ℤ)
    (rows : List Row) (fleet : String) :
    statSDUs (processCSV bases hours now rows) fleet
        = fleetWindowSum fleet (now - hours * msPerHour) rows
      ∧ statSDUs24h (processCSV bases hours now rows) fleet
        = fleetWindowSum fleet (now - 24 * msPerHour) rows :=
  processCSV_counts_spec bases hours now rows fleet

/-- Spec-side definition for the C1 comparison, following the spec's words:
the sum of resourceCount over the fleet's valid records whose timestamp
lies in the CLOSED interval from now − 24 h to now. -/
def specClosedIntervalSum24h (fleet : String) (now : ℤ) (rows : List Row) : ℤ :=
  ((rows.filterMap validRecord).map fun e =>
    if e.1 = fleet ∧ now - 24 * msPerHour ≤ e.2.1 ∧ e.2.1 ≤ now then e.2.2 else 0).sum

/-- A valid row time-stamped one hour after the reference time `now = 0`. -/
def futureRow : Row := ⟨some (some 3600000), some "A", some (some 5), none, none⟩

/-- C1 counterexample: a record time-stamped after `now` (here one hour in
the future) is counted — the aggregator reports 5 for fleet "A" in the
24-hour window while the spec's closed interval [now − 24 h, now] contains
no record, so the claimed equality with the closed-interval sum is false. -/
theorem processCSV_counts_future_record :
    statSDUs24h (processCSV [] 24 0 [futureRow]) "A" = 5
      ∧ specClosedIntervalSum24h "A" 0 [futureRow] = 0 := by
  constructor
  · decide
  · decide

/-- C10: a fleet that has at least one valid record, all of whose valid
records are older than both the dynamic window and the 24-hour window,
still gets an entry in the aggregated mapping, with both counts zero — the
entry is created for every valid record before the window tests run. -/
theorem processCSV_stale_fleet_has_zero_entry (bases : List (String × String))
    (hours now : ℤ) (rows : List Row) (fleet : String)
    (hex : hasValidRecordFor fleet rows)
    (hold : ∀ e ∈ rows.filterMap validRecord, e.1 = fleet →
      e.2.1 < now - hours * msPerHour ∧ e.2.1 < now - 24 * msPerHour) :
    ∃ st, lookupStr fleet (processCSV bases hours now rows) = some st
      ∧ st.SDUs = 0 ∧ st.SDUs24h = 0 := by
  have hsome : (lookupStr fleet (processCSV bases hours now rows)).isSome = true := by
    unfold processCSV
    rw [lookupStr_isSome_foldl]
    obtain ⟨e, he, hname⟩ := hex
    obtain ⟨r, hr, hre⟩ := List.mem_filterMap.mp he
    refine Or.inr ?_ |> Bool.or_eq_true_iff.mpr
    refine List.any_eq_true.mpr ⟨r, hr, ?_⟩
    rw [hre]
    exact decide_eq_true hname
  obtain ⟨st, hst⟩ := Option.isSome_iff_exists.mp hsome
  refine ⟨st, hst, ?_, ?_⟩
  · have h := (processCSV_counts_spec bases hours now rows fleet).1
    have hzero : fleetWindowSum fleet (now - hours * msPerHour) rows = 0 := by
      apply List.sum_eq_zero
      intro x hx
      obtain ⟨e, he, hxe⟩ := List.mem_map.mp hx
      by_cases hname : e.1 = fleet
      · have := (hold e he hname).1
        rw [← hxe]
        simp [recordContrib, hname, not_le.mpr this]
      · rw [← hxe]; simp [recordContrib, hname]
    rw [hzero] at h
    simpa [statSDUs, hst] using h
  · have h := (processCSV_counts_spec bases hours now rows fleet).2
    have hzero : fleetWindowSum fleet (now - 24 * msPerHour) rows = 0 := by
      apply List.sum_eq_zero
      intro x hx
      obtain ⟨e, he, hxe⟩ := List.mem_map.mp hx
      by_cases hname : e.1 = fleet
      · have := (hold e he hname).2
        rw [← hxe]
        simp [recordContrib, hname, not_le.mpr this]
      · rw [← hxe]; simp [recordContrib, hname]
    rw [hzero] at h
    simpa [statSDUs24h, hst] using h

/-- A valid row for fleet "B" time-stamped far before both windows. -/
def staleRow : Row := ⟨some (some (-900000000)), some "B", some (some 7), none, none⟩

/-- Concrete instance of the C10 statement: a fleet seen only in a stale
record appears in the mapping with both counts zero. -/
theorem processCSV_stale_fleet_has_zero_entry_witness :
    ∃ st, lookupStr "B" (processCSV [] 24 0 [staleRow]) = some st
      ∧ st.SDUs = 0 ∧ st.SDUs24h = 0 :=
  processCSV_stale_fleet_has_zero_entry [] 24 0 [staleRow] "B"
    ⟨("B", -900000000, 7), by decide, by decide⟩ (by decide)

/-- The fleet key the app.js handler uses (line 210): the trimmed Fleet Name
when the field is truthy, the literal "Unknown" otherwise. -/
def appRowFleet (r : Row) : String :=
  match r.fleetName with
  | some f => jsTrim f
  | none => "Unknown"

/-- parseInt(row SDU Count, 10) || 0 in the app.js handler (line 211): a
missing field or a NaN parse both yield 0. -/
def appRowSdu (r : Row) : ℤ :=
  match r.sduCount with
  | some (some n) => n
  | _ => 0

/-- Whether the app.js handler's two Date-parse attempts succeed for a row
(lines 196-208): the field must be truthy and some attempt must parse. -/
def appTsParses (r : Row) : Bool :=
  match r.timestamp with
  | some (some _) => true
  | _ => false

/-- One step of the app.js aggregation (lines 195-221): rows without a
parsing timestamp are skipped; otherwise the count is added, under the
fleet key, to each of the two window mappings the timestamp reaches
(entries are created only inside the window tests). -/
def appStep (startDyn start24 : ℤ) (st : List (String × ℤ) × List (String × ℤ))
    (r : Row) : List (String × ℤ) × List (String × ℤ) :=
  match r.timestamp with
  | some (some ts) =>
    let fleet := appRowFleet r
    let sdu := appRowSdu r
    let d :=
      if startDyn ≤ ts then upsert fleet ((lookupStr fleet st.1).getD 0 + sdu) st.1 else st.1
    let h :=
      if start24 ≤ ts then upsert fleet ((lookupStr fleet st.2).getD 0 + sdu) st.2 else st.2
    (d, h)
  | _ => st

/-- The aggregation phase of analyzeAndFormatMessage (app.js lines 184-221):
fold the stream into the pair (dynamic-window mapping, 24-hour mapping). -/
def appAggregate (hours now : ℤ) (rows : List Row) :
    List (String × ℤ) × List (String × ℤ) :=
  rows.foldl (appStep (now - hours * msPerHour) (now - 24 * msPerHour)) ([], [])

theorem processRow_invalid (bases : List (String × String)) (since last24h : ℤ)
    (fleetData : List (String × FleetStats)) (r : Row) (h : validRecord r = none) :
    processRow bases since last24h fleetData r = fleetData := by
  simp [processRow, h]

theorem appStep_unparsed (startDyn start24 : ℤ)
    (st : List (String × ℤ) × List (String × ℤ)) (r : Row)
    (h : appTsParses r = false) : appStep startDyn start24 st r = st := by
  unfold appStep appTsParses at *
  cases hts : r.timestamp with
  | none => simp
  | some p => cases p with
    | none => simp
    | some ts => rw [hts] at h; simp at h

theorem processCSV_foldl_filter (bases : List (String × String)) (since last24h : ℤ)
    (rows : List Row) :
    ∀ fleetData : List (String × FleetStats),
      rows.foldl (processRow bases since last24h) fleetData
        = (rows.filter fun r => (validRecord r).isSome).foldl
            (processRow bases since last24h) fleetData := by
  induction rows with
  | nil => intro fd; rfl
  | cons r rest ih =>
    intro fd
    cases hv : validRecord r with
    | none =>
      rw [List.foldl_cons, processRow_invalid bases since last24h fd r hv]
      simp [List.filter_cons, hv, ih]
    | some e => simp [List.filter_cons, hv, ih]

theorem appAggregate_foldl_filter (startDyn start24 : ℤ) (rows : List Row) :
    ∀ st : List (String × ℤ) × List (String × ℤ),
      rows.foldl (appStep startDyn start24) st
        = (rows.filter appTsParses).foldl (appStep startDyn start24) st := by
  induction rows with
  | nil => intro st; rfl
  | cons r rest ih =>
    intro st
    cases hp : appTsParses r with
    | false =>
      rw [List.foldl_cons, appStep_unparsed startDyn start24 st r hp]
      simp [List.filter_cons, hp, ih]
    | true => simp [List.filter_cons, hp, ih]

/-- C2 (amended): in the local pipelines (anal_rc1.js, app_local_pushover.js)
a row that misses Fleet Name, misses SDU Count, or whose timestamp does not
parse is skipped, so the aggregation over any stream equals the aggregation
over the stream with those rows removed, and never fails. In app.js only
the timestamp gate skips a row: the aggregation equals the aggregation over
the stream restricted to rows with a parsing timestamp (a missing Fleet
Name is attributed to the fleet "Unknown" instead of being skipped — see
the counterexample). -/
theorem aggregation_skips_invalid_rows (bases : List (String × String))
    (hours now : ℤ) (rows : List Row) :
    processCSV bases hours now rows
        = processCSV bases hours now (rows.filter fun r => (validRecord r).isSome)
      ∧ appAggregate hours now rows
        = appAggregate hours now (rows.filter appTsParses) := by
  constructor
  · exact processCSV_foldl_filter bases _ _ rows []
  · exact appAggregate_foldl_filter _ _ rows ([], [])

/-- A row with a valid in-window timestamp and SDU count 5 but no Fleet Name
field. -/
def noFleetRow : Row := ⟨some (some 0), none, some (some 5), none, none⟩

/-- C2 counterexample: in the app.js aggregator a record with a missing
Fleet Name field does contribute — its 5 SDUs are credited to the fleet
"Unknown" in both windows, and the result differs from the result over the
stream with the record removed, so the claim is false for that aggregator. -/
theorem appAggregate_missing_fleet_contributes :
    appAggregate 24 0 [noFleetRow] = ([("Unknown", 5)], [("Unknown", 5)])
      ∧ appAggregate 24 0 ([] : List Row) = ([], [])
      ∧ appAggregate 24 0 [noFleetRow] ≠ appAggregate 24 0 ([] : List Row) := by
  refine ⟨by decide, by decide, by decide⟩

/-- parseFloat applied to the anal_rc1 getRentalCost result (line 347): the
"N/A" string and a stored NaN both parse to NaN, i.e. none. -/
def analRentNum (tbl : List (String × Option ℚ)) (fleet : String) : Option ℚ :=
  (getRentalCost tbl fleet).bind id

/-- The running totals of the profit loop (anal_rc1.js lines 334-338,
app.js lines 237-241). -/
structure Totals where
  totalValDynamic : ℚ
  totalVal24h : ℚ
  totalRentDynamic : ℚ
  totalRent24h : ℚ
  rentedValDynamic : ℚ
  rentedVal24h : ℚ
  rentedRentDynamic : ℚ
  rentedRent24h : ℚ
  ownedValDynamic : ℚ
  ownedVal24h : ℚ
deriving DecidableEq

/-- All totals start at 0. -/
def initTotals : Totals := ⟨0, 0, 0, 0, 0, 0, 0, 0, 0, 0⟩

/-- Rent prorated to the dynamic window: rentNum * (hours / 24)
(anal_rc1.js line 350, app.js line 259). -/
def proratedRent (rentNum hours : ℚ) : ℚ := rentNum * (hours / 24)

/-- One pass of the profit loop over the entry (fleet, dynamic count, 24-hour
count) — anal_rc1.js lines 340-360 and, with the same arithmetic, app.js
lines 244-272. The value goes into the overall totals for both windows; a
fleet whose resolved rent parses to a number greater than 0 is Rented (its
rent and value feed the rented totals), every other fleet is Owned. -/
def totalsStep (rentOf : String → Option ℚ) (price hours : ℚ) (t : Totals)
    (e : String × ℤ × ℤ) : Totals :=
  let valDynamic := (e.2.1 : ℚ) * price
  let val24h := (e.2.2 : ℚ) * price
  let t1 := { t with
    totalValDynamic := t.totalValDynamic + valDynamic
    totalVal24h := t.totalVal24h + val24h }
  match rentOf e.1 with
  | some rentNum =>
    if 0 < rentNum then
      { t1 with
        totalRent24h := t1.totalRent24h + rentNum
        totalRentDynamic := t1.totalRentDynamic + proratedRent rentNum hours
        rentedValDynamic := t1.rentedValDynamic + valDynamic
        rentedVal24h := t1.rentedVal24h + val24h
        rentedRentDynamic := t1.rentedRentDynamic + proratedRent rentNum hours
        rentedRent24h := t1.rentedRent24h + rentNum }
    else
      { t1 with
        ownedValDynamic := t1.ownedValDynamic + valDynamic
        ownedVal24h := t1.ownedVal24h + val24h }
  | none =>
    { t1 with
      ownedValDynamic := t1.ownedValDynamic + valDynamic
      ownedVal24h := t1.ownedVal24h + val24h }

/-- The profit loop over all fleet entries. -/
def computeTotals (rentOf : String → Option ℚ) (price hours : ℚ)
    (entries : List (String × ℤ × ℤ)) : Totals :=
  entries.foldl (totalsStep rentOf price hours) initTotals

/-- The derived net figures (anal_rc1.js lines 362-367, app.js lines
285-290) plus the carried gross figures used for the summary ROI row. -/
structure Summary where
  net24h : ℚ
  netDynamic : ℚ
  netRented24h : ℚ
  netRentedDynamic : ℚ
  netOwned24h : ℚ
  netOwnedDynamic : ℚ
  totalVal24h : ℚ
  totalRent24h : ℚ
  rentedVal24h : ℚ
  rentedRent24h : ℚ
deriving DecidableEq

/-- Assemble the summary from the totals. -/
def computeSummary (rentOf : String → Option ℚ) (price hours : ℚ)
    (entries : List (String × ℤ × ℤ)) : Summary :=
  let t := computeTotals rentOf price hours entries
  ⟨t.totalVal24h - t.totalRent24h, t.totalValDynamic - t.totalRentDynamic,
    t.rentedVal24h - t.rentedRent24h, t.rentedValDynamic - t.rentedRentDynamic,
    t.ownedVal24h, t.ownedValDynamic,
    t.totalVal24h, t.totalRent24h, t.rentedVal24h, t.rentedRent24h⟩

theorem computeTotals_split (rentOf : String → Option ℚ) (price hours : ℚ)
    (entries : List (String × ℤ × ℤ)) :
    (computeTotals rentOf price hours entries).totalVal24h
        = (computeTotals rentOf price hours entries).rentedVal24h
          + (computeTotals rentOf price hours entries).ownedVal24h
      ∧ (computeTotals rentOf price hours entries).totalValDynamic
        = (computeTotals rentOf price hours entries).rentedValDynamic
          + (computeTotals rentOf price hours entries).ownedValDynamic
      ∧ (computeTotals rentOf price hours entries).totalRent24h
        = (computeTotals rentOf price hours entries).rentedRent24h
      ∧ (computeTotals rentOf price hours entries).totalRentDynamic
        = (computeTotals rentOf price hours entries).rentedRentDynamic := by
  unfold computeTotals
  suffices h : ∀ t : Totals,
      t.totalVal24h = t.rentedVal24h + t.ownedVal24h →
      t.totalValDynamic = t.rentedValDynamic + t.ownedValDynamic →
      t.totalRent24h = t.rentedRent24h →
      t.totalRentDynamic = t.rentedRentDynamic →
      (entries.foldl (totalsStep rentOf price hours) t).totalVal24h
          = (entries.foldl (totalsStep rentOf price hours) t).rentedVal24h
            + (entries.foldl (totalsStep rentOf price hours) t).ownedVal24h
        ∧ (entries.foldl (totalsStep rentOf price hours) t).totalValDynamic
          = (entries.foldl (totalsStep rentOf price hours) t).rentedValDynamic
            + (entries.foldl (totalsStep rentOf price hours) t).ownedValDynamic
        ∧ (entries.foldl (totalsStep rentOf price hours) t).totalRent24h
          = (entries.foldl (totalsStep rentOf price hours) t).rentedRent24h
        ∧ (entries.foldl (totalsStep rentOf price hours) t).totalRentDynamic
          = (entries.foldl (totalsStep rentOf price hours) t).rentedRentDynamic by
    exact h initTotals (by simp [initTotals]) (by simp [initTotals])
      (by simp [initTotals]) (by simp [initTotals])
  induction entries with
  | nil => intro t h1 h2 h3 h4; exact ⟨h1, h2, h3, h4⟩
  | cons e rest ih =>
    intro t h1 h2 h3 h4
    rw [List.foldl_cons]
    apply ih <;>
      · unfold totalsStep
        cases rentOf e.1 with
        | none => simp; linarith
        | some rn =>
          by_cases hrn : 0 < rn <;> simp [hrn] <;> linarith

theorem computeTotals_prorated (rentOf : String → Option ℚ) (price hours : ℚ)
    (entries : List (String × ℤ × ℤ)) :
    (computeTotals rentOf price hours entries).rentedRentDynamic
        = (computeTotals rentOf price hours entries).rentedRent24h * hours / 24
      ∧ (computeTotals rentOf price hours entries).totalRentDynamic
        = (computeTotals rentOf price hours entries).totalRent24h * hours / 24 := by
  unfold computeTotals
  suffices h : ∀ t : Totals,
      t.rentedRentDynamic = t.rentedRent24h * hours / 24 →
      t.totalRentDynamic = t.totalRent24h * hours / 24 →
      (entries.foldl (totalsStep rentOf price hours) t).rentedRentDynamic
          = (entries.foldl (totalsStep rentOf price hours) t).rentedRent24h * hours / 24
        ∧ (entries.foldl (totalsStep rentOf price hours) t).totalRentDynamic
          = (entries.foldl (totalsStep rentOf price hours) t).totalRent24h * hours / 24 by
    exact h initTotals (by simp [initTotals]) (by simp [initTotals])
  induction entries with
  | nil => intro t h1 h2; exact ⟨h1, h2⟩
  | cons e rest ih =>
    intro t h1 h2
    rw [List.foldl_cons]
    apply ih <;>
      · unfold totalsStep proratedRent
        cases rentOf e.1 with
        | none => simp [h1, h2]
        | some rn =>
          by_cases hrn : 0 < rn <;> simp [hrn, h1, h2] <;> ring

/-- C3: in the computed profit summary the Overall row is the sum of the
Rented row and the Owned row, for the 24-hour native amount, the
dynamic-window native amount, and both fiat conversions (the displayed USD
amounts are the native nets times the fiat rate), for every fleet-entry
list, price, window size, fiat rate and rent-resolution function (both
getRentalCost variants included). -/
theorem summary_rented_plus_owned_eq_overall (rentOf : String → Option ℚ)
    (price hours fiat : ℚ) (entries : List (String × ℤ × ℤ)) :
    (computeSummary rentOf price hours entries).net24h
        = (computeSummary rentOf price hours entries).netRented24h
          + (computeSummary rentOf price hours entries).netOwned24h
      ∧ (computeSummary rentOf price hours entries).netDynamic
        = (computeSummary rentOf price hours entries).netRentedDynamic
          + (computeSummary rentOf price hours entries).netOwnedDynamic
      ∧ (computeSummary rentOf price hours entries).net24h * fiat
        = (computeSummary rentOf price hours entries).netRented24h * fiat
          + (computeSummary rentOf price hours entries).netOwned24h * fiat
      ∧ (computeSummary rentOf price hours entries).netDynamic * fiat
        = (computeSummary rentOf price hours entries).netRentedDynamic * fiat
          + (computeSummary rentOf price hours entries).netOwnedDynamic * fiat := by
  obtain ⟨h1, h2, h3, h4⟩ := computeTotals_split rentOf price hours entries
  unfold computeSummary
  simp only []
  refine ⟨by linarith, by linarith, ?_, ?_⟩
  · rw [h1, h3]; ring
  · rw [h2, h4]; ring

/-- C8: proration of rent to the dynamic window is linear — the prorated
rent of rate r for an h-hour window is r·h/24, a 24-hour window reproduces
r exactly, and consequently in the aggregate totals the dynamic rent
columns equal the 24-hour rent columns times hours/24. -/
theorem proration_linear (rentOf : String → Option ℚ) (price hours r : ℚ)
    (entries : List (String × ℤ × ℤ)) :
    proratedRent r hours = r * hours / 24
      ∧ proratedRent r 24 = r
      ∧ (computeTotals rentOf price hours entries).rentedRentDynamic
        = (computeTotals rentOf price hours entries).rentedRent24h * hours / 24
      ∧ (computeTotals rentOf price hours entries).totalRentDynamic
        = (computeTotals rentOf price hours entries).totalRent24h * hours / 24 := by
  obtain ⟨h1, h2⟩ := computeTotals_prorated rentOf price hours entries
  refine ⟨by unfold proratedRent; ring, by unfold proratedRent; norm_num, h1, h2⟩

/-- The SDU resource mint (sdu_price.js line 13); PublicKey equality is
string equality of the base-58 form. -/
def sduMintAddress : String := "SDUsgfSZaDhhZ76U3ZgvtFiXsfnHbf2VrzYxjBZ5YbM"

/-- The ATLAS settlement-currency mint (sdu_price.js line 14). -/
def atlasMintAddress : String := "ATLASXmbPQxBUYbxPsV97usA3fPQYEqzQBUHgiFCUsXx"

/-- One open order of the external order book (the fields sdu_price.js
reads). The quantity is optional to model a missing field. -/
structure Order where
  orderType : String
  orderMint : String
  currencyMint : String
  uiPrice : ℚ
  orderOriginationQty : Option ℚ
  owner : String
deriving DecidableEq

/-- The minimum-price floor 0.01 of sdu_price.js line 24, written in lowest
terms as 1/100. -/
def minPriceFloor : ℚ := ⟨1, 100, by decide, by decide⟩

theorem minPriceFloor_eq : minPriceFloor = 1 / 100 := by
  rw [minPriceFloor, Rat.mk'_eq_divInt, Rat.divInt_eq_div]
  norm_num

/-- The value returned by getLowestSDUPrice. The inner option of quantity
models the "Unknown" fallback for a missing or zero quantity. -/
structure PriceQuote where
  price : Option ℚ
  quantity : Option (Option ℚ)
  seller : Option String
deriving DecidableEq

/-- The all-null quote (sdu_price.js lines 28 and 39). -/
def allNullQuote : PriceQuote := ⟨none, none, none⟩

/-- An all-null quote, field by field. -/
def PriceQuote.isAllNull (q : PriceQuote) : Prop :=
  q.price = none ∧ q.quantity = none ∧ q.seller = none

/-- parseFloat(x).toFixed(6) read back as a number: x rounded to 6 decimal
places, ties toward plus infinity (ECMA toFixed picks the larger candidate). -/
def toFixed6 (q : ℚ) : ℚ := (round (q * 1000000) : ℚ) / 1000000

/-- Insert into a sorted list, keeping earlier equal elements first. -/
def insertLe {α : Type} (le : α → α → Bool) (x : α) : List α → List α
  | [] => [x]
  | y :: ys => if le x y then x :: y :: ys else y :: insertLe le x ys

/-- Stable comparator sort, modelling Array.prototype.sort with the
ascending comparator (a, b) => a.uiPrice - b.uiPrice. -/
def sortByLe {α : Type} (le : α → α → Bool) : List α → List α
  | [] => []
  | x :: xs => insertLe le x (sortByLe le xs)

/-- The ascending unit-price comparator of sdu_price.js line 25. -/
def uiLe (a b : Order) : Bool := decide (a.uiPrice ≤ b.uiPrice)

/-- The four chained filters of sdu_price.js lines 20-24: sell side, SDU
resource mint, ATLAS currency mint, unit price at or above the floor. -/
def qualifyingOrders (allOrders : List Order) : List Order :=
  (((allOrders.filter fun o => decide (o.orderType = "sell")).filter
        fun o => decide (o.orderMint = sduMintAddress)).filter
      fun o => decide (o.currencyMint = atlasMintAddress)).filter
    fun o => decide (minPriceFloor ≤ o.uiPrice)

/-- getLowestSDUPrice (sdu_price.js lines 17-41): on a failed query (logged,
not raised) or when no order survives the filters, the all-null quote;
otherwise the first order of the ascending sort, with its price pushed
through parseFloat(...).toFixed(6) and its quantity defaulted to "Unknown"
when falsy. -/
def getLowestSDUPrice (res : Except String (List Order)) : PriceQuote :=
  match res with
  | Except.error _ => allNullQuote
  | Except.ok allOrders =>
    match sortByLe uiLe (qualifyingOrders allOrders) with
    | [] => allNullQuote
    | o :: _ =>
      ⟨some (toFixed6 o.uiPrice),
        some (match o.orderOriginationQty with
              | some q => if q = 0 then none else some q
              | none => none),
        some o.owner⟩

theorem mem_insertLe {α : Type} (le : α → α → Bool) (x a : α) (l : List α) :
    a ∈ insertLe le x l ↔ a = x ∨ a ∈ l := by
  induction l with
  | nil => simp [insertLe]
  | cons y ys ih =>
    unfold insertLe
    by_cases hle : le x y = true
    · simp [hle]
    · simp only [if_neg hle, List.mem_cons, ih]
      tauto

theorem mem_sortByLe {α : Type} (le : α → α → Bool) (a : α) (l : List α) :
    a ∈ sortByLe le l ↔ a ∈ l := by
  induction l with
  | nil => simp [sortByLe]
  | cons x xs ih => simp [sortByLe, mem_insertLe, ih]

theorem sortByLe_head_min (l : List Order) (o : Order) (rest : List Order)
    (h : sortByLe uiLe l = o :: rest) :
    o ∈ l ∧ ∀ x ∈ l, o.uiPrice ≤ x.uiPrice := by
  induction l generalizing o rest with
  | nil => simp [sortByLe] at h
  | cons x xs ih =>
    unfold sortByLe at h
    cases hs : sortByLe uiLe xs with
    | nil =>
      rw [hs] at h
      unfold insertLe at h
      obtain ⟨rfl, rfl⟩ : x = o ∧ ([] : List Order) = rest := by
        constructor <;> injection h <;> assumption
      refine ⟨List.mem_cons_self x xs, ?_⟩
      intro y hy
      rcases List.mem_cons.mp hy with rfl | hy
      · exact le_refl _
      · exact absurd ((mem_sortByLe uiLe y xs).mpr hy) (by simp [hs])
    | cons o₁ rest₁ =>
      rw [hs] at h
      obtain ⟨ho₁mem, ho₁min⟩ := ih o₁ rest₁ hs
      unfold insertLe at h
      cases hle : uiLe x o₁ with
      | true =>
        rw [if_pos hle] at h
        obtain ⟨rfl, _⟩ : x = o ∧ o₁ :: rest₁ = rest := by
          constructor <;> injection h <;> assumption
        refine ⟨List.mem_cons_self x xs, ?_⟩
        intro y hy
        rcases List.mem_cons.mp hy with rfl | hy
        · exact le_refl _
        · exact le_trans (of_decide_eq_true hle) (ho₁min y hy)
      | false =>
        rw [if_neg (by simp [hle])] at h
        obtain ⟨rfl, _⟩ : o₁ = o ∧ insertLe uiLe x rest₁ = rest := by
          constructor <;> injection h <;> assumption
        refine ⟨List.mem_cons_of_mem x ho₁mem, ?_⟩
        intro y hy
        rcases List.mem_cons.mp hy with rfl | hy
        · have hnot : ¬ (y.uiPrice ≤ o₁.uiPrice) := fun hc =>
            absurd (show uiLe y o₁ = true from decide_eq_true hc) (by simp [hle])
          exact le_of_not_le hnot
        · exact ho₁min y hy

theorem mem_qualifyingOrders (allOrders : List Order) (x : Order) :
    x ∈ qualifyingOrders allOrders
      ↔ x ∈ allOrders ∧ x.orderType = "sell" ∧ x.orderMint = sduMintAddress
          ∧ x.currencyMint = atlasMintAddress ∧ minPriceFloor ≤ x.uiPrice := by
  simp only [qualifyingOrders, List.mem_filter, decide_eq_true_eq, and_assoc]

/-- C6 (amended): getLowestSDUPrice returns the all-null quote when the
query fails or when no open order passes all four filters (sell side, SDU
mint, ATLAS currency mint, price at or above the 0.01 floor); when some
order qualifies, the returned price is the minimum qualifying unit price —
rounded to 6 decimal places by the toFixed(6) formatting — attained by a
qualifying order and bounding every qualifying order from below. -/
theorem getLowestSDUPrice_min_qualifying (res : Except String (List Order)) :
    (∀ e, res = Except.error e → getLowestSDUPrice res = allNullQuote)
      ∧ ∀ allOrders, res = Except.ok allOrders →
          ((qualifyingOrders allOrders = [] → getLowestSDUPrice res = allNullQuote)
            ∧ ∀ o ∈ qualifyingOrders allOrders,
                ∃ m, (getLowestSDUPrice res).price = some (toFixed6 m)
                  ∧ (∃ o₁ ∈ qualifyingOrders allOrders, o₁.uiPrice = m)
                  ∧ ∀ o₂ ∈ allOrders, o₂.orderType = "sell" →
                      o₂.orderMint = sduMintAddress → o₂.currencyMint = atlasMintAddress →
                      minPriceFloor ≤ o₂.uiPrice → m ≤ o₂.uiPrice) := by
  constructor
  · intro e he
    rw [he]
    rfl
  · intro allOrders hok
    subst hok
    constructor
    · intro hempty
      simp [getLowestSDUPrice, hempty, sortByLe]
    · intro o ho
      cases hs : sortByLe uiLe (qualifyingOrders allOrders) with
      | nil =>
        exact absurd ((mem_sortByLe uiLe o _).mpr ho) (by simp [hs])
      | cons h₀ t₀ =>
        obtain ⟨hmem, hmin⟩ := sortByLe_head_min _ _ _ hs
        refine ⟨h₀.uiPrice, ?_, ⟨h₀, hmem, rfl⟩, ?_⟩
        · simp [getLowestSDUPrice, hs]
        · intro o₂ hin hsell hmint hcur hfloor
          exact hmin o₂ ((mem_qualifyingOrders allOrders o₂).mpr
            ⟨hin, hsell, hmint, hcur, hfloor⟩)

/-- The price 1/3, in lowest terms; its decimal expansion has more than
6 places, so toFixed(6) moves it. -/
def oneThird : ℚ := ⟨1, 3, by decide, by decide⟩

/-- A qualifying sell order priced at 1/3 ATLAS per unit. -/
def sellOrderThird : Order :=
  ⟨"sell", sduMintAddress, atlasMintAddress, oneThird, some 1, "seller"⟩

theorem oneThird_eq : oneThird = 1 / 3 := by
  rw [oneThird, Rat.mk'_eq_divInt, Rat.divInt_eq_div]
  norm_num

/-- C6 counterexample: with a single qualifying order priced 1/3, the quote
price is 0.333333 (= 333333/1000000), the minimum unit price rounded to 6
decimals by toFixed(6) — not the minimum unit price itself, so the claim
that the returned price equals the minimum unit price is false. -/
theorem getLowestSDUPrice_price_not_exact_min :
    (getLowestSDUPrice (Except.ok [sellOrderThird])).price = some (333333 / 1000000 : ℚ)
      ∧ (getLowestSDUPrice (Except.ok [sellOrderThird])).price
          ≠ some sellOrderThird.uiPrice := by
  have hprice : (getLowestSDUPrice (Except.ok [sellOrderThird])).price
      = some (toFixed6 oneThird) := rfl
  have hval : toFixed6 oneThird = 333333 / 1000000 := by
    rw [oneThird_eq]
    unfold toFixed6
    rw [round_eq]
    norm_num
  have hne : (333333 / 1000000 : ℚ) ≠ 1 / 3 := by norm_num
  constructor
  · rw [hprice, hval]
  · rw [hprice, hval]
    have hui : sellOrderThird.uiPrice = 1 / 3 := oneThird_eq
    rw [hui]
    simp only [ne_eq, Option.some.injEq]
    exact hne

/-- The fields of the local analysis result (anal_rc1.js lines 369-383). -/
structure AnalysisResult where
  fleetData : List (String × FleetStats)
  currentPrice : ℚ
  atlasUsd : ℚ
  summary : Summary
deriving DecidableEq

/-- analyzeAndFormatLocal (anal_rc1.js lines 327-384; app.js lines 222-226
use the same guard): aggregate the rows, then abort with the
"No valid SDU price found." error when the resolved quote carries no price
— before any value is computed from a price — and otherwise run the profit
loop at the quoted price. -/
def analyzeAndFormatLocal (tbl : List (String × Option ℚ))
    (bases : List (String × String)) (hours now : ℤ) (rows : List Row)
    (quote : PriceQuote) (atlasUsd : ℚ) : Except String AnalysisResult :=
  let fleetData := processCSV bases hours now rows
  match quote.price with
  | none => Except.error "No valid SDU price found."
  | some currentPrice =>
    Except.ok ⟨fleetData, currentPrice, atlasUsd,
      computeSummary (analRentNum tbl) currentPrice (hours : ℚ)
        (fleetData.map fun fs => (fs.1, fs.2.SDUs, fs.2.SDUs24h))⟩

/-- C4: whenever the price resolver yields an all-null quote, the pipeline
aborts with the "No valid SDU price found." fatal error and no report value
is produced — it never proceeds to compute with a price of 0. -/
theorem pipeline_aborts_on_null_quote (tbl : List (String × Option ℚ))
    (bases : List (String × String)) (hours now : ℤ) (rows : List Row)
    (atlasUsd : ℚ) (res : Except String (List Order))
    (h : (getLowestSDUPrice res).isAllNull) :
    analyzeAndFormatLocal tbl bases hours now rows (getLowestSDUPrice res) atlasUsd
        = Except.error "No valid SDU price found."
      ∧ ∀ result, analyzeAndFormatLocal tbl bases hours now rows
          (getLowestSDUPrice res) atlasUsd ≠ Except.ok result := by
  have hp : (getLowestSDUPrice res).price = none := h.1
  have habort : analyzeAndFormatLocal tbl bases hours now rows
      (getLowestSDUPrice res) atlasUsd = Except.error "No valid SDU price found." := by
    unfold analyzeAndFormatLocal
    rw [hp]
  refine ⟨habort, fun result hcon => ?_⟩
  rw [habort] at hcon
  cases hcon

/-- A buy-side order: it fails the sell filter, so the resolver yields the
all-null quote and the pipeline aborts. -/
def buyOrder : Order := ⟨"buy", sduMintAddress, atlasMintAddress, 5, some 1, "seller"⟩

/-- Concrete instance of C4: with only a buy order on the book the pipeline
returns the fatal error and no result. -/
theorem pipeline_aborts_on_null_quote_witness :
    analyzeAndFormatLocal [] [] 24 0 [] (getLowestSDUPrice (Except.ok [buyOrder])) 1
        = Except.error "No valid SDU price found."
      ∧ ∀ result, analyzeAndFormatLocal [] [] 24 0 []
          (getLowestSDUPrice (Except.ok [buyOrder])) 1 ≠ Except.ok result :=
  pipeline_aborts_on_null_quote [] [] 24 0 [] 1 (Except.ok [buyOrder]) ⟨rfl, rfl, rfl⟩

/-- ECMA toFixed(0) as an integer: round to the nearest integer with
half-ties away from zero — the sign is stripped before the closest integer
is chosen, so (-12.5).toFixed(0) is "-13" while 12.5 gives "13". On
nonnegative inputs this is `round`. -/
def jsToFixed0 (q : ℚ) : ℤ := if q < 0 then -round (-q) else round q

theorem abs_jsToFixed0_sub (q : ℚ) : |(jsToFixed0 q : ℚ) - q| ≤ 1 / 2 := by
  unfold jsToFixed0
  by_cases h : q < 0
  · rw [if_pos h]
    push_cast
    rw [show (-(round (-q) : ℚ)) - q = (-q) - (round (-q) : ℚ) by ring]
    exact abs_sub_round (-q)
  · rw [if_neg h]
    rw [abs_sub_comm]
    exact abs_sub_round q

/-- One row of the app.js fleet table (lines 274-282), holding the values
the renderer formats. roi none models the "N/A" cell, rent none the "N/A"
rent string. -/
structure TableRow where
  fleet : String
  sdus : ℤ
  val : ℚ
  sdus24h : ℤ
  val24h : ℚ
  rent : Option ℚ
  roi : Option ℤ
deriving DecidableEq

/-- The per-fleet body of app.js lines 244-282: values are count · price;
when the resolved rent parses to a number greater than 0 the ROI cell is
(value24h / rentNum · 100).toFixed(0) — rounded to the nearest integer,
half-ties away from zero, from the unrounded inputs — and otherwise stays
"N/A". -/
def mkTableRow (tbl : List (String × Option ℚ)) (fleet : String)
    (dynamicCount count24h : ℤ) (price : ℚ) : TableRow :=
  let valueDynamic := (dynamicCount : ℚ) * price
  let value24h := (count24h : ℚ) * price
  match getRentalCostApp tbl fleet with
  | some rentNum =>
    if 0 < rentNum then
      ⟨fleet, dynamicCount, valueDynamic, count24h, value24h, some rentNum,
        some (jsToFixed0 (value24h / rentNum * 100))⟩
    else ⟨fleet, dynamicCount, valueDynamic, count24h, value24h, some rentNum, none⟩
  | none => ⟨fleet, dynamicCount, valueDynamic, count24h, value24h, none, none⟩

/-- C5: the ROI cell is the N/A sentinel exactly when the resolved rental
rate is absent, zero or negative (including the hard-excluded "lemon"
fleets and unparseable configured values), and otherwise equals
(24h value / rental rate) · 100 rounded to the nearest integer from the
unrounded 24h value, where 24h value = last24hCount · price — toFixed(0)
resolves half-ties away from zero (jsToFixed0), and the reported integer is
within 1/2 of the exact ratio, i.e. a nearest integer. -/
theorem tableRow_roi_rule (tbl : List (String × Option ℚ)) (fleet : String)
    (dynamicCount count24h : ℤ) (price : ℚ) :
    ((mkTableRow tbl fleet dynamicCount count24h price).roi = none
        ↔ ∀ r, getRentalCostApp tbl fleet = some r → r ≤ 0)
      ∧ ∀ r, getRentalCostApp tbl fleet = some r → 0 < r →
          (mkTableRow tbl fleet dynamicCount count24h price).roi
              = some (jsToFixed0 ((count24h : ℚ) * price / r * 100))
            ∧ |(jsToFixed0 ((count24h : ℚ) * price / r * 100) : ℚ)
                - (count24h : ℚ) * price / r * 100| ≤ 1 / 2 := by
  unfold mkTableRow
  cases hr : getRentalCostApp tbl fleet with
  | none => simp
  | some rn =>
    by_cases hrn : 0 < rn
    · simp only [if_pos hrn]
      constructor
      · constructor
        · intro hcon
          exact absurd hcon (by simp)
        · intro hall
          exact absurd (hall rn rfl) (not_le.mpr hrn)
      · intro r hr₂ hpos
        obtain rfl : rn = r := by injection hr₂
        exact ⟨rfl, abs_jsToFixed0_sub _⟩
    · simp only [if_neg hrn]
      constructor
      · constructor
        · intro _ r hr₂
          obtain rfl : rn = r := by injection hr₂
          exact le_of_not_lt hrn
        · intro _
          trivial
      · intro r hr₂ hpos
        obtain rfl : rn = r := by injection hr₂
        exact absurd hpos hrn

/-- A concrete instance matching the spec's scenario: rate 10, price 0.02,
24h count 120 gives ROI 24 and a rate-less fleet gives the sentinel. -/
theorem tableRow_roi_rule_witness :
    (mkTableRow [("alpha", some 10)] "Alpha" 50 120 (1/50)).roi = some 24
      ∧ (mkTableRow [("alpha", some 10)] "Beta" 50 120 (1/50)).roi = none := by
  have h := tableRow_roi_rule [("alpha", some 10)] "Alpha" 50 120 (1/50)
  have hrent : getRentalCostApp [("alpha", some 10)] "Alpha" = some 10 := by decide
  have hroi := (h.2 10 hrent (by norm_num)).1
  constructor
  · rw [hroi]
    have : ((120 : ℤ) : ℚ) * (1/50) / 10 * 100 = 24 := by norm_num
    rw [this]
    norm_num [jsToFixed0, round_eq]
  · have h₂ := tableRow_roi_rule [("alpha", some 10)] "Beta" 50 120 (1/50)
    refine h₂.1.mpr ?_
    intro r hr
    have hnone : getRentalCostApp [("alpha", some 10)] "Beta" = none := by decide
    rw [hnone] at hr
    cases hr

/-- Lexicographic code-point order on strings, the model used here for the
localeCompare comparator of the base-name sort (display order only). -/
def lexLe : List Char → List Char → Bool
  | [], _ => true
  | _ :: _, [] => false
  | a :: as, b :: bs => if a = b then lexLe as bs else decide (a < b)

/-- The base-name comparator of anal_rc1.js lines 122-126. -/
def baseNameLe (a b : String × FleetStats) : Bool :=
  lexLe a.2.baseName.data b.2.baseName.data

/-- padEnd(w): append spaces up to width w (longer cells are unchanged). -/
def jsPadEnd (s : String) (w : ℕ) : String :=
  s ++ ⟨List.replicate (w - s.length) ' '⟩

/-- toFixed(digits) of a rational, following ECMA: strip the sign, round
the magnitude at the digit-th decimal place (half up, which the sign strip
turns into half-ties away from zero overall), print with exactly that many
decimals, and put the sign back — so a tiny negative value prints as
"-0.00". -/
def qToFixed (digits : ℕ) (q : ℚ) : String :=
  let m := (round (|q| * ((10 : ℚ) ^ digits))).toNat
  let intPart := toString (m / 10 ^ digits)
  let fracPart := toString (m % 10 ^ digits)
  let frac := String.mk (List.replicate (digits - fracPart.length) '0') ++ fracPart
  let core := if digits = 0 then intPart else intPart ++ "." ++ frac
  if q < 0 then "-" ++ core else core

/-- Number printing for the rent cell. Configured rents are decimal
literals; an integer rent prints without a point and any other rational is
shown with 6 decimals (an approximation of float printing, display only). -/
def jsNumToString (q : ℚ) : String :=
  if q.den = 1 then toString q.num else qToFixed 6 q

/-- The rent cell of the anal_rc1 table: the looked-up value, the string
"NaN" for an unparseable configured value, or "N/A". -/
def rentCellToString (rent : Option (Option ℚ)) : String :=
  match rent with
  | none => "N/A"
  | some none => "NaN"
  | some (some r) => jsNumToString r

/-- The header row of the anal_rc1 wide table (line 117). -/
def analHeaders : List String :=
  ["Fleet", "Base", "SDUs", "Val", "24h SDUs", "24h Val", "Rent", "ROI"]

/-- The cells of one anal_rc1 table row (lines 128-146). -/
def analFleetRowCells (tbl : List (String × Option ℚ)) (price : ℚ)
    (e : String × FleetStats) : List String :=
  let roi :=
    match analRentNum tbl e.1 with
    | some r =>
      if 0 < r then toString (jsToFixed0 ((e.2.SDUs24h : ℚ) * price / r * 100)) ++ "%"
      else "N/A"
    | none => "N/A"
  [e.1, e.2.baseName, toString e.2.SDUs, qToFixed 2 ((e.2.SDUs : ℚ) * price),
    toString e.2.SDUs24h, qToFixed 2 ((e.2.SDUs24h : ℚ) * price),
    rentCellToString (getRentalCost tbl e.1), roi]

/-- Column widths: for each column index, the maximum cell width over all
given rows (anal_rc1.js lines 148-157; app.js lines 58-67 seed the fold
with the header widths, which equals folding over headers :: rows). -/
def colWidths (rows : List (List String)) (numCols : ℕ) : List ℕ :=
  (List.range numCols).map fun i =>
    rows.foldl (fun acc row => max acc ((row.get? i).getD "").length) 0

/-- Render one row: pad each cell to its column width, join with three
spaces. -/
def renderRow (widths : List ℕ) (cells : List String) : String :=
  String.intercalate "   " (List.zipWith jsPadEnd cells widths)

/-- The dash separator row. -/
def separatorRow (widths : List ℕ) : String :=
  String.intercalate "   " (widths.map fun w => (⟨List.replicate w '-'⟩ : String))

/-- formatFleetTable (anal_rc1.js lines 113-169): the no-data notice for an
empty mapping; otherwise the aligned table — rows sorted by base name, a
heading line, the header row, the separator, and one row per fleet. -/
def analFormatFleetTable (tbl : List (String × Option ℚ))
    (fleetData : List (String × FleetStats)) (hours : ℤ) (price : ℚ) : String :=
  if fleetData.isEmpty then "⚠️ No data for the last " ++ toString hours ++ " hours.\n"
  else
    let sorted := sortByLe baseNameLe fleetData
    let tableRows := analHeaders :: sorted.map (analFleetRowCells tbl price)
    let widths := colWidths tableRows 8
    let rendered := tableRows.map (renderRow widths)
    let body :=
      match rendered with
      | [] => ([] : List String)
      | h :: rest => h :: separatorRow widths :: rest
    String.intercalate "\n" (("SDU Breakdown (Last " ++ toString hours ++ "h):") :: body)

/-- The header row of the app.js wide table (line 56). -/
def appHeaders : List String := ["Fleet", "SDUs", "Val", "24h SDUs", "24h Val", "Rent", "ROI"]

/-- The cells of one app.js table row (lines 274-282 as consumed by lines
60-76). -/
def appRowCells (row : TableRow) : List String :=
  [row.fleet, toString row.sdus, qToFixed 2 row.val, toString row.sdus24h,
    qToFixed 2 row.val24h,
    (match row.rent with
     | some r => jsNumToString r
     | none => "N/A"),
    (match row.roi with
     | some z => toString z ++ "%"
     | none => "N/A")]

/-- formatFleetTable (app.js lines 54-80): the table in a Slack code block —
there is no empty-data check, the header row and separator are emitted even
when tableData is empty. -/
def appFormatFleetTable (tableData : List TableRow) (hours : ℤ) : String :=
  let rows := tableData.map appRowCells
  let widths := colWidths (appHeaders :: rows) 7
  let headerRow := renderRow widths appHeaders
  let tableString :=
    String.intercalate "\n" (headerRow :: separatorRow widths :: rows.map (renderRow widths))
  "```\n" ++ "SDU Breakdown (Last " ++ toString hours ++ "h):\n" ++ tableString ++ "\n```"

/-- C9 (amended): for an empty aggregated mapping the local wide renderer
(anal_rc1.js; app_local_pushover.js is identical here) returns exactly the
single no-data notice naming the requested window, and nothing else. -/
theorem analFormatFleetTable_empty_notice (tbl : List (String × Option ℚ))
    (hours : ℤ) (price : ℚ) :
    analFormatFleetTable tbl [] hours price
      = "⚠️ No data for the last " ++ toString hours ++ " hours.\n" := rfl

/-- C9 counterexample: the app.js wide renderer has no empty-data check —
on an empty fleet list it emits a header-and-separator-only table, not the
no-data notice, so the claim is false for that renderer. -/
theorem appFormatFleetTable_empty_not_notice :
    appFormatFleetTable [] 24
        = "```\nSDU Breakdown (Last 24h):\nFleet   SDUs   Val   24h SDUs   24h Val   Rent   ROI\n-----   ----   ---   --------   -------   ----   ---\n```"
      ∧ appFormatFleetTable [] 24 ≠ "⚠️ No data for the last 24 hours.\n"
      ∧ appFormatFleetTable [] 24 ≠ "No data for the last 24 hours." := by
  refine ⟨by decide, by decide, by decide⟩

end StarAtlasScan
